import Mathlib

/-!
Verification of the gallery generator (`generate_gallery.py`).

The script is embedded shallowly: file contents are `List Char`, the two
regular-expression searches of the extractor are modelled by an explicit
backtracking matcher with exactly the semantics of Python's `re.search`
on the two concrete patterns used by the script, the directory scan works
on an explicit list of `(name, contents)` pairs, and the renderer builds
the very strings the Python f-strings build.
-/

namespace Gallery

/-- The backquote character (the fence delimiter), written via its code
point so that it can be used in patterns and lemmas. -/
def btick : Char := Char.ofNat 96

/-- Python's `\s` character class for `str` patterns (Unicode whitespace;
the script only ever meets the ASCII part, but the full set is modelled). -/
def pySpace (c : Char) : Bool :=
  let n := c.toNat
  decide (n = 9 ∨ n = 10 ∨ n = 11 ∨ n = 12 ∨ n = 13 ∨ n = 28 ∨ n = 29 ∨
    n = 30 ∨ n = 31 ∨ n = 32 ∨ n = 133 ∨ n = 160 ∨ n = 5760 ∨
    (8192 ≤ n ∧ n ≤ 8202) ∨ n = 8232 ∨ n = 8233 ∨ n = 8239 ∨ n = 8287 ∨
    n = 12288)

/-- Python's `str.strip()`: drop leading and trailing whitespace. -/
def pyStrip (l : List Char) : List Char :=
  ((l.dropWhile pySpace).reverse.dropWhile pySpace).reverse

/-- The fixed fallback description `"代码示例"` of
`extract_description_from_md`. -/
def descFallback : List Char := ("代码示例").data

/-- The three-backquote fence delimiter. -/
def fence3 : List Char := [btick, btick, btick]

/-- The language alternation `(?:r|R|python|Python)` of both patterns:
consume one of the four literal tags.  The four alternatives start with
pairwise distinct characters, so at most one can apply and the regex
engine's alternation order is irrelevant. -/
def matchTag : List Char → Option (List Char)
  | 'r' :: rest => some rest
  | 'R' :: rest => some rest
  | 'p' :: 'y' :: 't' :: 'h' :: 'o' :: 'n' :: rest => some rest
  | 'P' :: 'y' :: 't' :: 'h' :: 'o' :: 'n' :: rest => some rest
  | _ => none

/-- The four literal tag spellings accepted by the patterns. -/
def langTags : List (List Char) :=
  [("r").data, ("R").data, ("python").data, ("Python").data]

/-- Greedy `\s*` followed by the continuation `k`: consume as much
whitespace as possible first, backtracking one character at a time when
the continuation fails — exactly the behaviour of the backtracking
engine on `\s*`. -/
def wsStar (k : List Char → Option (List Char)) : List Char → Option (List Char)
  | [] => k []
  | c :: rest =>
    if pySpace c then
      match wsStar k rest with
      | some g => some g
      | none => k (c :: rest)
    else k (c :: rest)

/-- The characters before the first `'\n'`, provided a `'\n'` occurs. -/
def upToNl : List Char → Option (List Char)
  | [] => none
  | c :: rest => if c = '\n' then some [] else (upToNl rest).map (fun g => c :: g)

/-- Lazy `(.+?)\n` (no DOTALL): at least one non-newline character up to
the first following `'\n'`. -/
def dotPlusLazyNl : List Char → Option (List Char)
  | [] => none
  | c :: rest => if c = '\n' then none else (upToNl rest).map (fun g => c :: g)

/-- The continuation after the greedy `\s*` of the description pattern:
the literal `\n#` then `\s*(.+?)\n`. -/
def afterWsDesc : List Char → Option (List Char)
  | c1 :: c2 :: r => if c1 = '\n' ∧ c2 = '#' then wsStar dotPlusLazyNl r else none
  | _ => none

/-- The part `\s*\n#\s*(.+?)\n` of the description pattern, applied after
the language tag has been consumed. -/
def descAfterTag : List Char → Option (List Char) :=
  wsStar afterWsDesc

/-- Try the full description pattern
```(?:r|R|python|Python)\s*\n#\s*(.+?)\n
at the start of the input, returning the capture group. -/
def matchDescAt : List Char → Option (List Char)
  | a :: b :: c :: rest =>
    if a = btick ∧ b = btick ∧ c = btick then
      match matchTag rest with
      | some r => descAfterTag r
      | none => none
    else none
  | _ => none

/-- `re.search` for the description pattern: try every start position,
left to right. -/
def searchDesc : List Char → Option (List Char)
  | [] => none
  | c :: rest =>
    match matchDescAt (c :: rest) with
    | some g => some g
    | none => searchDesc rest

/-- `extract_description_from_md` on contents that were read successfully:
`re.search(r'```(?:r|R|python|Python)\s*\n#\s*(.+?)\n', content)`, the
capture group stripped, the fixed fallback when the search fails. -/
def extract_description (content : List Char) : List Char :=
  match searchDesc content with
  | some g => pyStrip g
  | none => descFallback

/-- Does the input start with three backquotes? -/
def fenceStart : List Char → Bool
  | a :: b :: c :: _ => a = btick && b = btick && c = btick
  | _ => false

/-- Lazy `(.*?)` (DOTALL) followed by the literal `\n```< -/
def lazyFence : List Char → Option (List Char)
  | [] => none
  | c :: rest =>
    if c = '\n' && fenceStart rest then some []
    else (lazyFence rest).map (fun g => c :: g)

/-- The continuation after the greedy `\s*` of the code pattern: the
literal `\n` then the lazy group and closing fence. -/
def afterWsCode : List Char → Option (List Char)
  | c :: r => if c = '\n' then lazyFence r else none
  | _ => none

/-- The part `\s*\n(.*?)\n```` of the code pattern, applied after the
language tag has been consumed. -/
def codeAfterTag : List Char → Option (List Char) :=
  wsStar afterWsCode

/-- Try the full code pattern at the start of the input. -/
def matchCodeAt : List Char → Option (List Char)
  | a :: b :: c :: rest =>
    if a = btick ∧ b = btick ∧ c = btick then
      match matchTag rest with
      | some r => codeAfterTag r
      | none => none
    else none
  | _ => none

/-- `re.search` for the code pattern. -/
def searchCode : List Char → Option (List Char)
  | [] => none
  | c :: rest =>
    match matchCodeAt (c :: rest) with
    | some g => some g
    | none => searchCode rest

/-- `extract_code_from_md` on contents that were read successfully:
`re.search(r'```(?:r|R|python|Python)\s*\n(.*?)\n```', content, re.DOTALL)`,
the capture group stripped, the empty string when the search fails. -/
def extract_code (content : List Char) : List Char :=
  match searchCode content with
  | some g => pyStrip g
  | none => []

/-- `extract_description_from_md` including the `try/except` around the
file read: `none` models any failed read (missing file, permission error,
decode failure); the Boolean records whether the warning diagnostic was
printed. -/
def extract_description_from_md : Option (List Char) → List Char × Bool
  | some content => (extract_description content, false)
  | none => (descFallback, true)

/-- `extract_code_from_md` including the `try/except` around the file
read. -/
def extract_code_from_md : Option (List Char) → List Char × Bool
  | some content => (extract_code content, false)
  | none => ([], true)

/-! ### Reading of the specification's notion of fenced blocks

The claims speak of "the first fenced block whose opening tag is a
recognized language tag".  That is formalised line-based: a fence line is
a line starting with three backquotes, an opening fence line carries a
tag, and a block runs to the next fence line.  The recognized set is, per
the specification, the case variants of `r` and `python`. -/

/-- Split contents into lines at `'\n'` (the separators are dropped; a
trailing newline yields a final empty line, as in text editors). -/
def linesOf : List Char → List (List Char)
  | [] => [[]]
  | c :: rest =>
    if c = '\n' then [] :: linesOf rest
    else
      match linesOf rest with
      | l :: ls => (c :: l) :: ls
      | [] => [[c]]

/-- A fence line: a line starting with three backquotes. -/
def isFenceLine (l : List Char) : Bool := fenceStart l

/-- The tag of a fence line: everything after the backquotes, trimmed. -/
def fenceTagOf (l : List Char) : List Char := pyStrip (l.drop 3)

/-- Case-insensitively recognized language tag, per the specification:
any case variant of `r` or `python`. -/
def specRecognizedTag (t : List Char) : Bool :=
  let l := t.map Char.toLower
  decide (l = ("r").data) || decide (l = ("python").data)

/-- Split a line list at the first fence line: the lines before it and
the lines after it; `none` when no fence line occurs. -/
def splitAtFence : List (List Char) → Option (List (List Char) × List (List Char))
  | [] => none
  | l :: ls =>
    if isFenceLine l then some ([], ls)
    else (splitAtFence ls).map (fun p => (l :: p.1, p.2))

/-- The body (list of lines) of the first fenced block whose opening tag
is recognized: scan for an opening fence line; its block runs to the next
fence line (an unclosed trailing fence yields no block). -/
def firstRecBlockAux : Nat → List (List Char) → Option (List (List Char))
  | 0, _ => none
  | _, [] => none
  | fuel + 1, l :: ls =>
    if isFenceLine l then
      match splitAtFence ls with
      | some p => if specRecognizedTag (fenceTagOf l) then some p.1 else firstRecBlockAux fuel p.2
      | none => none
    else firstRecBlockAux fuel ls

/-- See `firstRecBlockAux`; the fuel is the number of lines. -/
def firstRecBlock (lns : List (List Char)) : Option (List (List Char)) :=
  firstRecBlockAux lns.length lns

/-- Join lines back with `'\n'` separators. -/
def joinLines : List (List Char) → List Char
  | [] => []
  | [l] => l
  | l :: ls => l ++ '\n' :: joinLines ls

/-- The claimed behaviour of `extract_description` (claim C1, from the
specification's words): the first line of the first recognized fenced
block, with the leading `#` and surrounding whitespace stripped, when and
only when that line begins with `#`; the fallback in every other case. -/
def specDescription (content : List Char) : List Char :=
  match firstRecBlock (linesOf content) with
  | some (first :: _) =>
    match first with
    | '#' :: r => pyStrip r
    | _ => descFallback
  | _ => descFallback

/-- The claimed behaviour of `extract_code` (claim C2, from the
specification's words): the body of the first recognized fenced block
(all lines between the fences), trimmed as a whole; empty when there is
no such block. -/
def specCode (content : List Char) : List Char :=
  match firstRecBlock (linesOf content) with
  | some body => pyStrip (joinLines body)
  | none => []

/-! ### Directory scan -/

/-- Lexicographic comparison of strings by code point, Python's `<=` on
`str` (and on the path objects compared by `sorted`). -/
def lexLe : List Char → List Char → Bool
  | [], _ => true
  | _ :: _, [] => false
  | a :: as, b :: bs => if a.toNat = b.toNat then lexLe as bs else decide (a.toNat < b.toNat)

/-- One gallery entry, as assembled by `scan_directory`. -/
structure Item where
  title : List Char
  description : List Char
  image_path : List Char
  code : List Char
deriving DecidableEq

/-- The `.md` extension. -/
def mdExt : List Char := (".md").data

/-- The `.png` extension. -/
def pngExt : List Char := (".png").data

/-- `Path.stem` for a name ending in `.md`: the name without the final
suffix (a bare `.md` is a dotfile without suffix, so it is its own stem). -/
def stemOf (n : List Char) : List Char :=
  if n.take (n.length - 3) = [] then n else n.take (n.length - 3)

/-- Does `glob('*.md')` list this name?  `fnmatch` semantics: any name
ending in `.md`. -/
def isMdName (n : List Char) : Bool := mdExt.isSuffixOf n

/-- The loop body of `scan_directory`: from one documentation file,
an item, provided the sibling image exists in the directory. -/
def mkItem (dirName : List Char) (names : List (List Char))
    (f : List Char × List Char) : Option Item :=
  let base := stemOf f.1
  if names.contains (base ++ pngExt) then
    some { title := base
           description := extract_description f.2
           image_path := ("../img/").data ++ dirName ++ ("/").data ++ base ++ pngExt
           code := extract_code f.2 }
  else none

/-- The ordering of `sorted(target_dir.glob('*.md'))`. -/
def fileLe (a b : List Char × List Char) : Prop := lexLe a.1 b.1 = true

instance : DecidableRel fileLe := fun a b => instDecidableEqBool (lexLe a.1 b.1) true

/-- `scan_directory`: `none` models a missing category directory (the
warning branch), a list of `(name, contents)` pairs models an existing
one.  The Boolean records whether the missing-directory diagnostic was
printed. -/
def scan_directory (dirName : List Char)
    (dir : Option (List (List Char × List Char))) : List Item × Bool :=
  match dir with
  | none => ([], true)
  | some files =>
    let mds := (files.filter (fun f => isMdName f.1)).insertionSort fileLe
    (mds.filterMap (mkItem dirName (files.map Prod.fst)), false)

/-! ### Renderer -/

/-- Python's `pat in s` on strings: contiguous substring test. -/
def hasSubstr (pat : List Char) : List Char → Bool
  | [] => pat.isPrefixOf []
  | c :: rest => pat.isPrefixOf (c :: rest) || hasSubstr pat rest

/-- `detect_language`: fixed case-insensitive substring rules on the
category name (`str.lower` only affects ASCII letters here, modelled by
`Char.toLower`). -/
def detect_language (dirName : List Char) : List Char × List Char :=
  let dl := dirName.map Char.toLower
  if hasSubstr (("r code").data) dl || hasSubstr (("r-code").data) dl then
    (("R").data, ("r").data)
  else if hasSubstr (("python").data) dl then (("Python").data, ("python").data)
  else if hasSubstr (("javascript").data) dl || hasSubstr (("js").data) dl then
    (("JavaScript").data, ("javascript").data)
  else (("Code").data, ("plaintext").data)


/-- Decimal rendering of the per-page sequential identifier. -/
def natStr (n : Nat) : List Char := (toString n).data

/-- The trigger reference a card carries for its detail view. -/
def trigStr (i : Nat) : List Char :=
  ("openModal('modal-").data ++ natStr i ++ ("')").data

/-- The identifier attribute of detail view `i`. -/
def modalIdStr (i : Nat) : List Char :=
  ("id=\"modal-").data ++ natStr i ++ ("\"").data

/-- Card template up to the sequential identifier of the comment. -/
def cardA : List Char := ("\n            <!-- Item ").data

/-- Card template between identifier and title in the comment. -/
def cardB1 : List Char := (": ").data

/-- Card template between the comment and the image source. -/
def cardB2 : List Char := (" -->
            <div class=\"gallery-item\">
                <div class=\"gallery-image-wrapper\">
                    <img src=\"").data

/-- Card template between image source and alt text. -/
def cardB3 : List Char := ("\" alt=\"").data

/-- Card template between alt text and the view-code trigger. -/
def cardB4 : List Char := ("\" class=\"gallery-image\">
                    <div class=\"gallery-overlay\">
                        <button class=\"view-code-btn\" onclick=\"").data

/-- Card template between the trigger and the title heading. -/
def cardB5 : List Char := ("\">查看代码</button>
                    </div>
                </div>
                <div class=\"gallery-info\">
                    <h3 class=\"gallery-item-title\">").data

/-- Card template between title heading and description. -/
def cardB6 : List Char := ("</h3>
                    <p class=\"gallery-item-description\">").data

/-- Card template after the description. -/
def cardB7 : List Char := ("</p>
                </div>
            </div>
").data

/-- One thumbnail card, exactly the f-string of `generate_html_content`'s
first loop for index `i` (1-based). -/
def cardHtml (i : Nat) (it : Item) : List Char :=
  cardA ++ natStr i ++ cardB1 ++ it.title ++ cardB2 ++ it.image_path ++ cardB3 ++
    it.title ++ cardB4 ++ trigStr i ++ cardB5 ++ it.title ++ cardB6 ++
    it.description ++ cardB7

/-- Modal template up to the sequential identifier of the comment. -/
def modalA : List Char := ("\n    <!-- Modal ").data

/-- Modal template between identifier and title in the comment. -/
def modalB1 : List Char := (": ").data

/-- Modal template between the comment and the `id` attribute. -/
def modalB2 : List Char := (" -->
    <div ").data

/-- Modal template between the `id` attribute and the close trigger. -/
def modalB3 : List Char := (" class=\"modal\">
        <div class=\"modal-content\">
            <span class=\"modal-close\" onclick=\"closeModal('modal-").data

/-- Modal template between close trigger and the title heading. -/
def modalB4 : List Char := ("')\">&times;</span>
            <h2>").data

/-- Modal template between title and language name. -/
def modalB5 : List Char := (" - ").data

/-- Modal template between language name and highlighting id. -/
def modalB6 : List Char := (" Code</h2>
            <pre><code class=\"language-").data

/-- Modal template between highlighting id and code body. -/
def modalB7 : List Char := ("\">").data

/-- Modal template between code body and image source. -/
def modalB8 : List Char := ("</code></pre>
            <div class=\"modal-image\">
                <img src=\"").data

/-- Modal template between image source and alt text. -/
def modalB9 : List Char := ("\" alt=\"").data

/-- Modal template after the alt text. -/
def modalB10 : List Char := ("\">
            </div>
        </div>
    </div>
").data

/-- One detail view (modal), exactly the f-string of
`generate_html_content`'s second loop for index `i` (1-based). -/
def modalHtml (i : Nat) (it : Item) (langName langCode : List Char) : List Char :=
  modalA ++ natStr i ++ modalB1 ++ it.title ++ modalB2 ++ modalIdStr i ++ modalB3 ++
    natStr i ++ modalB4 ++ it.title ++ modalB5 ++ langName ++ modalB6 ++ langCode ++
    modalB7 ++ it.code ++ modalB8 ++ it.image_path ++ modalB9 ++ it.title ++ modalB10

/-- The card fragments in render order (`enumerate(items, 1)`); the page
assembles their concatenation, so this list is the page's card order. -/
def galleryCards (items : List Item) : List (List Char) :=
  (List.enumFrom 1 items).map (fun p => cardHtml p.1 p.2)

/-- The detail-view fragments in render order (`enumerate(items, 1)`). -/
def modalViews (dirName : List Char) (items : List Item) : List (List Char) :=
  (List.enumFrom 1 items).map
    (fun p => modalHtml p.1 p.2 (detect_language dirName).1 (detect_language dirName).2)

/-- The URL of the Prism language component for a highlighting id. -/
def prismUrl (langCode : List Char) : List Char :=
  ("https://cdnjs.cloudflare.com/ajax/libs/prism/1.29.0/components/prism-").data ++
    langCode ++ (".min.js").data

/-- Page template up to the `<title>` text. -/
def htmlHead1 : List Char := ("<!DOCTYPE html>
<html lang=\"zh-CN\">
<head>
    <meta charset=\"UTF-8\">
    <meta name=\"viewport\" content=\"width=device-width, initial-scale=1.0\">
    <title>").data

/-- Page template between the `<title>` text and the `<h1>` text. -/
def htmlHead2 : List Char := ("</title>
    <link rel=\"stylesheet\" href=\"../css/styles.css\">
    <link rel=\"stylesheet\" href=\"../css/gallery.css\">
    <link rel=\"stylesheet\" href=\"https://cdnjs.cloudflare.com/ajax/libs/prism/1.29.0/themes/prism-tomorrow.min.css\">
</head>
<body class=\"dark\">
    <!-- Background Canvas -->
    <canvas id=\"background-canvas\"></canvas>

    <!-- Top navigation -->
    <nav class=\"top-nav fade-in\">
        <a href=\"../index.html\">Home</a>
        <a href=\"introduction.html\">Introduction</a>
        <a href=\"r-code.html\">R code</a>
        <a href=\"python-code.html\">Python code</a>
        <a href=\"other-code.html\">Other code</a>
    </nav>

    <!-- Main content -->
    <main class=\"gallery-content fade-in\">
        <h1 class=\"gallery-title\">").data

/-- Page template between the `<h1>` text and the card fragments. -/
def htmlMid1 : List Char := ("</h1>

        <div class=\"gallery-grid\">
").data

/-- Page template between card fragments and modal fragments (closing
grid, footer, modal comment). -/
def htmlMid2 : List Char := ("
        </div>
    </main>

    <!-- Footer -->
    <footer class=\"footer fade-in\">
        <div class=\"container\">
            <div class=\"footer-content\">
                <div class=\"footer-section\">
                    <h4>代码空间</h4>
                    <p>提供简洁美观的代码。</p>
                    <div class=\"footer-social\">
                        <a href=\"https://www.webofscience.com/wos/author/record/491521\" class=\"social-link\">Obsidian</a>
                        <a href=\"https://www.webofscience.com/wos/author/record/491521\" class=\"social-link\">Web of Science</a>
                        <a href=\"https://scholar.google.com/citations?user=FLRq3GEAAAAJ&hl=zh-TW&oi=sra\" class=\"social-link\">Google Scholar</a>
                        <a href=\"https://www.researchgate.net/profile/Guanglin-He-heguanglin-2/research\" class=\"social-link\">Research Gate</a>
                    </div>
                </div>
                <div class=\"footer-section\">
                    <h4>联系我们</h4>
                    <div class=\"contact-info\">
                        <p>📧 gianthuihui@gmail.com</p>
                    </div>
                </div>
            </div>
            <div class=\"footer-bottom\">
                <p><a href=\"https://beian.miit.gov.cn/\" target=\"_blank\" rel=\"noopener noreferrer\">蜀ICP备2025140770号-3</a> &copy; </p>
            </div>
        </div>
    </footer>

    <!-- Modals for code display -->
").data

/-- Page template between modal fragments and the Prism component URL. -/
def htmlTail1 : List Char := ("

    <script src=\"../js/page-load.js\"></script>
    <script src=\"../js/background.js\"></script>
    <script src=\"../js/modal.js\"></script>
    <script src=\"https://cdnjs.cloudflare.com/ajax/libs/prism/1.29.0/prism.min.js\"></script>
    <script src=\"").data

/-- Page template after the Prism component URL. -/
def htmlTail2 : List Char := ("\"></script>
</body>
</html>
").data

/-- `generate_html_content`: the complete page document. -/
def generate_html_content (dirName : List Char) (items : List Item) : List Char :=
  let langName := (detect_language dirName).1
  let langCode := (detect_language dirName).2
  let pageTitle := langName ++ (" Code Gallery").data
  htmlHead1 ++ pageTitle ++ htmlHead2 ++ pageTitle ++ htmlMid1 ++
    (galleryCards items).flatten ++ htmlMid2 ++ (modalViews dirName items).flatten ++
    htmlTail1 ++ prismUrl langCode ++ htmlTail2

/-- The default output file name: category name lowercased, spaces
replaced by hyphens, `.html` appended. -/
def defaultOutName (dirName : List Char) : List Char :=
  (dirName.map Char.toLower).map (fun c => if c = ' ' then '-' else c) ++ (".html").data

/-- Writing a file into the output directory (overwriting an existing
one of the same name). -/
def setFile (pages : List (List Char × List Char)) (name content : List Char) :
    List (List Char × List Char) :=
  if (pages.map Prod.fst).contains name then
    pages.map (fun p => if p.1 = name then (name, content) else p)
  else pages ++ [(name, content)]

/-- `generate_page`: scan, and when the item list is empty print the
diagnostic and return without touching the output directory; otherwise
render and write the page.  The Boolean records whether the empty-warning
branch was taken. -/
def generate_page (dirName : List Char) (outName : Option (List Char))
    (dir : Option (List (List Char × List Char)))
    (pages : List (List Char × List Char)) : List (List Char × List Char) × Bool :=
  let items := (scan_directory dirName dir).1
  if items.isEmpty then (pages, true)
  else
    (setFile pages (outName.getD (defaultOutName dirName))
      (generate_html_content dirName items), false)

/-- A category directory with two documentation/image pairs whose base
names `a!` and `a` order differently than their file names `a!.md` and
`a.md` (`!` precedes `.`, and `a` is a proper prefix of `a!`). -/
def prefixCexFiles : List (List Char × List Char) :=
  [((("a!.md").data), (("x").data)), ((("a!.png").data), []),
    ((("a.md").data), (("x").data)), ((("a.png").data), [])]

/-! ### Lemmas about the matcher -/

theorem pySpace_nl : pySpace '\n' = true := by decide

theorem ne_nl_of_not_pySpace {c : Char} (h : pySpace c = false) : c ≠ '\n' := by
  intro hc
  rw [hc, pySpace_nl] at h
  exact Bool.noConfusion h

theorem upToNl_append (xs rest : List Char) (h : '\n' ∉ xs) :
    upToNl (xs ++ '\n' :: rest) = some xs := by
  induction xs with
  | nil =>
    rw [List.nil_append, upToNl, if_pos rfl]
  | cons a as ih =>
    have ha : a ≠ '\n' := fun hh => h (hh ▸ List.mem_cons_self a as)
    rw [List.cons_append, upToNl, if_neg ha,
      ih (fun hm => h (List.mem_cons_of_mem a hm))]
    rfl

theorem dotPlusLazyNl_append (d : Char) (ds rest : List Char)
    (hd : pySpace d = false) (hds : '\n' ∉ ds) :
    dotPlusLazyNl (d :: (ds ++ '\n' :: rest)) = some (d :: ds) := by
  rw [dotPlusLazyNl, if_neg (ne_nl_of_not_pySpace hd), upToNl_append ds rest hds]
  rfl

theorem wsStar_nonspace (k : List Char → Option (List Char)) (c : Char)
    (cs : List Char) (hc : pySpace c = false) : wsStar k (c :: cs) = k (c :: cs) := by
  simp [wsStar, hc]

theorem wsStar_space_inner (k : List Char → Option (List Char)) (c : Char)
    (cs g : List Char) (hc : pySpace c = true) (h : wsStar k cs = some g) :
    wsStar k (c :: cs) = some g := by
  simp [wsStar, hc, h]

theorem wsStar_space_fallback (k : List Char → Option (List Char)) (c : Char)
    (cs : List Char) (hc : pySpace c = true) (h : wsStar k cs = none) :
    wsStar k (c :: cs) = k (c :: cs) := by
  simp [wsStar, hc, h]

theorem afterWsDesc_not_nl (c : Char) (cs : List Char) (hc : c ≠ '\n') :
    afterWsDesc (c :: cs) = none := by
  cases cs with
  | nil => rfl
  | cons b t => simp [afterWsDesc, hc]

theorem afterWsCode_not_nl (c : Char) (cs : List Char) (hc : c ≠ '\n') :
    afterWsCode (c :: cs) = none := by
  simp [afterWsCode, hc]

theorem matchTag_append (t s : List Char) (ht : t ∈ langTags) :
    matchTag (t ++ s) = some s := by
  simp only [langTags, List.mem_cons, List.not_mem_nil, or_false] at ht
  rcases ht with h | h | h | h <;> subst h <;> rfl

theorem descAfterTag_pattern (d : Char) (ds rest : List Char)
    (hd : pySpace d = false) (hds : '\n' ∉ ds) :
    descAfterTag ('\n' :: '#' :: ((d :: ds) ++ '\n' :: rest)) = some (d :: ds) := by
  have hinner : wsStar afterWsDesc ('#' :: ((d :: ds) ++ '\n' :: rest)) = none := by
    rw [wsStar_nonspace _ _ _ (by decide)]
    exact afterWsDesc_not_nl _ _ (by decide)
  unfold descAfterTag
  rw [wsStar_space_fallback _ _ _ pySpace_nl hinner]
  show afterWsDesc ('\n' :: '#' :: _) = _
  rw [afterWsDesc, if_pos ⟨rfl, rfl⟩, List.cons_append,
    wsStar_nonspace _ _ _ hd]
  exact dotPlusLazyNl_append d ds rest hd hds

theorem fenceStart_head_ne (c : Char) (cs : List Char) (hc : c ≠ btick) :
    fenceStart (c :: cs) = false := by
  cases cs with
  | nil => rfl
  | cons b t =>
    cases t with
    | nil => rfl
    | cons e u => simp [fenceStart, hc]

theorem lazyFence_nl_fence (rest : List Char) :
    lazyFence ('\n' :: (fence3 ++ rest)) = some [] := rfl

theorem lazyFence_cons_skip (c : Char) (cs : List Char)
    (h : (decide (c = '\n') && fenceStart cs) = false) :
    lazyFence (c :: cs) = (lazyFence cs).map (fun g => c :: g) := by
  rw [lazyFence, if_neg (by simp [h])]

theorem lazyFence_append (body rest : List Char) (hb : body ≠ [])
    (ht : btick ∉ body) (hl : body.getLast? ≠ some '\n') :
    lazyFence (body ++ '\n' :: (fence3 ++ rest)) = some body := by
  induction body with
  | nil => exact absurd rfl hb
  | cons x ys ih =>
    cases ys with
    | nil =>
      have hx : x ≠ '\n' := by
        intro hh
        exact hl (by simp [hh])
      rw [List.singleton_append,
        lazyFence_cons_skip x _ (by rw [decide_eq_false hx, Bool.false_and]),
        lazyFence_nl_fence]
      rfl
    | cons y zs =>
      have hy : y ≠ btick := fun hh => ht (by simp [hh])
      have hcond : (decide (x = '\n') &&
          fenceStart ((y :: zs) ++ '\n' :: (fence3 ++ rest))) = false := by
        rw [List.cons_append, fenceStart_head_ne y _ hy, Bool.and_false]
      have hrec : lazyFence ((y :: zs) ++ '\n' :: (fence3 ++ rest)) = some (y :: zs) := by
        refine ih (by simp) (fun hm => ht (List.mem_cons_of_mem x hm)) ?_
        rw [List.getLast?_cons_cons] at hl
        exact hl
      rw [List.cons_append, lazyFence_cons_skip x _ (by rw [← List.cons_append]; exact hcond),
        hrec]
      rfl

theorem codeAfterTag_pattern (b : Char) (bs rest : List Char)
    (hb : pySpace b = false) (ht : btick ∉ (b :: bs))
    (hl : (b :: bs).getLast? ≠ some '\n') :
    codeAfterTag ('\n' :: ((b :: bs) ++ '\n' :: (fence3 ++ rest))) = some (b :: bs) := by
  have hinner : wsStar afterWsCode ((b :: bs) ++ '\n' :: (fence3 ++ rest)) = none := by
    rw [List.cons_append, wsStar_nonspace _ _ _ hb]
    exact afterWsCode_not_nl _ _ (ne_nl_of_not_pySpace hb)
  unfold codeAfterTag
  rw [wsStar_space_fallback _ _ _ pySpace_nl hinner]
  show afterWsCode ('\n' :: _) = _
  rw [afterWsCode, if_pos rfl]
  exact lazyFence_append (b :: bs) rest (by simp) ht hl

theorem matchDescAt_fence (t X : List Char) (ht : t ∈ langTags) :
    matchDescAt (fence3 ++ (t ++ X)) = descAfterTag X := by
  show matchDescAt (btick :: btick :: btick :: (t ++ X)) = _
  rw [matchDescAt, if_pos ⟨rfl, rfl, rfl⟩, matchTag_append t X ht]

theorem matchCodeAt_fence (t X : List Char) (ht : t ∈ langTags) :
    matchCodeAt (fence3 ++ (t ++ X)) = codeAfterTag X := by
  show matchCodeAt (btick :: btick :: btick :: (t ++ X)) = _
  rw [matchCodeAt, if_pos ⟨rfl, rfl, rfl⟩, matchTag_append t X ht]

theorem matchDescAt_ne_tick (a : Char) (t : List Char) (ha : a ≠ btick) :
    matchDescAt (a :: t) = none := by
  match t with
  | [] => rfl
  | [b] => rfl
  | b :: c :: r => simp [matchDescAt, ha]

theorem matchCodeAt_ne_tick (a : Char) (t : List Char) (ha : a ≠ btick) :
    matchCodeAt (a :: t) = none := by
  match t with
  | [] => rfl
  | [b] => rfl
  | b :: c :: r => simp [matchCodeAt, ha]

theorem searchDesc_append (pre s : List Char) (h : btick ∉ pre) :
    searchDesc (pre ++ s) = searchDesc s := by
  induction pre with
  | nil => rfl
  | cons a as ih =>
    have ha : a ≠ btick := fun hh => h (hh ▸ List.mem_cons_self a as)
    rw [List.cons_append, searchDesc,
      matchDescAt_ne_tick a _ ha, ih (fun hm => h (List.mem_cons_of_mem a hm))]

theorem searchCode_append (pre s : List Char) (h : btick ∉ pre) :
    searchCode (pre ++ s) = searchCode s := by
  induction pre with
  | nil => rfl
  | cons a as ih =>
    have ha : a ≠ btick := fun hh => h (hh ▸ List.mem_cons_self a as)
    rw [List.cons_append, searchCode,
      matchCodeAt_ne_tick a _ ha, ih (fun hm => h (List.mem_cons_of_mem a hm))]

theorem searchDesc_no_tick (s : List Char) (h : btick ∉ s) : searchDesc s = none := by
  induction s with
  | nil => rfl
  | cons a as ih =>
    have ha : a ≠ btick := fun hh => h (hh ▸ List.mem_cons_self a as)
    rw [searchDesc, matchDescAt_ne_tick a _ ha,
      ih (fun hm => h (List.mem_cons_of_mem a hm))]

theorem searchCode_no_tick (s : List Char) (h : btick ∉ s) : searchCode s = none := by
  induction s with
  | nil => rfl
  | cons a as ih =>
    have ha : a ≠ btick := fun hh => h (hh ▸ List.mem_cons_self a as)
    rw [searchCode, matchCodeAt_ne_tick a _ ha,
      ih (fun hm => h (List.mem_cons_of_mem a hm))]

theorem searchDesc_head_some (c : Char) (rest g : List Char)
    (h : matchDescAt (c :: rest) = some g) : searchDesc (c :: rest) = some g := by
  rw [searchDesc, h]

theorem searchCode_head_some (c : Char) (rest g : List Char)
    (h : matchCodeAt (c :: rest) = some g) : searchCode (c :: rest) = some g := by
  rw [searchCode, h]

theorem extract_description_of_search {s g : List Char} (h : searchDesc s = some g) :
    extract_description s = pyStrip g := by
  unfold extract_description
  rw [h]

theorem extract_description_of_fail {s : List Char} (h : searchDesc s = none) :
    extract_description s = descFallback := by
  unfold extract_description
  rw [h]

theorem extract_code_of_search {s g : List Char} (h : searchCode s = some g) :
    extract_code s = pyStrip g := by
  unfold extract_code
  rw [h]

theorem extract_code_of_fail {s : List Char} (h : searchCode s = none) :
    extract_code s = [] := by
  unfold extract_code
  rw [h]

/-! ### Claims C1, C2, C3, C10: the extractor -/

/-- Claim C1, counterexample.  The claim says `extract_description` consults
only the first fenced block with a recognized tag (`specDescription`
formalises that reading).  On a file whose first block has no comment
line but whose second block has one, the implementation's `re.search`
finds the second block's comment, while the claimed behaviour is the
fallback, so the claim is false. -/
theorem extract_description_not_first_block :
    specDescription (("```python\nx = 1\n```\nmore\n```python\n# hello\ny = 2\n```\n").data)
        = descFallback ∧
      extract_description (("```python\nx = 1\n```\nmore\n```python\n# hello\ny = 2\n```\n").data)
        = ("hello").data ∧
      extract_description (("```python\nx = 1\n```\nmore\n```python\n# hello\ny = 2\n```\n").data)
        ≠ specDescription (("```python\nx = 1\n```\nmore\n```python\n# hello\ny = 2\n```\n").data) := by
  refine ⟨by decide, by decide, by decide⟩

/-- Claim C1, amended.  `extract_description` is not confined to the first
recognized fenced block: it returns the stripped text of the first place
in the file where a recognized opening fence is followed (after
whitespace ending in a newline) by a `#` comment line, wherever that
occurs; when the file contains no backquote at all it returns the
fallback.  Concretely: for any backquote-free prefix, recognized tag,
comment text with non-whitespace head and no embedded newline, the
comment text is returned stripped; and on backquote-free files the
fallback is returned. -/
theorem extract_description_search_semantics :
    (∀ (pre t : List Char) (d : Char) (ds rest : List Char),
        btick ∉ pre → t ∈ langTags → pySpace d = false → '\n' ∉ ds →
        extract_description
            (pre ++ (fence3 ++ (t ++ ('\n' :: '#' :: ((d :: ds) ++ '\n' :: rest)))))
          = pyStrip (d :: ds)) ∧
      (∀ s : List Char, btick ∉ s → extract_description s = descFallback) := by
  constructor
  · intro pre t d ds rest hpre ht hd hds
    have hm : matchDescAt (fence3 ++ (t ++ ('\n' :: '#' :: ((d :: ds) ++ '\n' :: rest))))
        = some (d :: ds) := by
      rw [matchDescAt_fence _ _ ht]
      exact descAfterTag_pattern d ds rest hd hds
    have hs : searchDesc (pre ++ (fence3 ++ (t ++ ('\n' :: '#' :: ((d :: ds) ++ '\n' :: rest)))))
        = some (d :: ds) := by
      rw [searchDesc_append pre _ hpre]
      exact searchDesc_head_some btick _ _ hm
    exact extract_description_of_search hs
  · intro s hs
    exact extract_description_of_fail (searchDesc_no_tick s hs)

/-- Claim C1, witness for the amended theorem at a concrete file. -/
theorem extract_description_search_semantics_witness :
    extract_description
        ((("Intro, no fences. ").data) ++
          (fence3 ++ ((("python").data) ++
            ('\n' :: '#' :: (('d' :: ("raws a plot").data) ++
              '\n' :: (("x = 1\n```\n").data))))))
      = ("draws a plot").data :=
  (extract_description_search_semantics.1 (("Intro, no fences. ").data) (("python").data)
      'd' (("raws a plot").data) (("x = 1\n```\n").data)
      (by decide) (by decide) (by decide) (by decide)).trans (by decide)

/-- Claim C2, counterexample.  The claim ties `extract_code` to the first
fenced block of the file (`specCode` formalises that block-based
reading).  The pattern search is not anchored to line starts: in a file
whose only fence-looking line content `x```python` sits mid-line there
is no fenced block at all, yet `extract_code` still matches mid-line
and returns `A`, so the claim is false. -/
theorem extract_code_not_block_based :
    specCode (("x```python\nA\n```\n").data) = [] ∧
      extract_code (("x```python\nA\n```\n").data) = ("A").data ∧
      extract_code (("x```python\nA\n```\n").data)
        ≠ specCode (("x```python\nA\n```\n").data) := by
  refine ⟨by decide, by decide, by decide⟩

/-- Claim C2, amended.  `extract_code` returns the stripped characters between
the first occurrence — anywhere in the file, not necessarily opening a
well-formed block — of a recognized fence followed by whitespace ending
in a newline, and the next newline immediately followed by three
backquotes; when the file contains no backquote it returns the empty
string.  Concretely: for any backquote-free prefix, recognized tag, and
backquote-free body with non-whitespace head and last character other
than newline, the body is returned stripped. -/
theorem extract_code_search_semantics :
    (∀ (pre t : List Char) (b : Char) (bs rest : List Char),
        btick ∉ pre → t ∈ langTags → pySpace b = false → btick ∉ (b :: bs) →
        (b :: bs).getLast? ≠ some '\n' →
        extract_code
            (pre ++ (fence3 ++ (t ++ ('\n' :: ((b :: bs) ++ '\n' :: (fence3 ++ rest))))))
          = pyStrip (b :: bs)) ∧
      (∀ s : List Char, btick ∉ s → extract_code s = []) := by
  constructor
  · intro pre t b bs rest hpre ht hb hbs hl
    have hm : matchCodeAt (fence3 ++ (t ++ ('\n' :: ((b :: bs) ++ '\n' :: (fence3 ++ rest)))))
        = some (b :: bs) := by
      rw [matchCodeAt_fence _ _ ht]
      exact codeAfterTag_pattern b bs rest hb hbs hl
    have hs : searchCode
        (pre ++ (fence3 ++ (t ++ ('\n' :: ((b :: bs) ++ '\n' :: (fence3 ++ rest))))))
        = some (b :: bs) := by
      rw [searchCode_append pre _ hpre]
      exact searchCode_head_some btick _ _ hm
    exact extract_code_of_search hs
  · intro s hs
    exact extract_code_of_fail (searchCode_no_tick s hs)

/-- Claim C2, witness for the amended theorem at a concrete file. -/
theorem extract_code_search_semantics_witness :
    extract_code
        ((("Header ").data) ++
          (fence3 ++ ((("R").data) ++
            ('\n' :: (('y' :: (" <- rnorm(10)\nplot(y)").data) ++
              '\n' :: (fence3 ++ (("\nTrailing").data)))))))
      = ("y <- rnorm(10)\nplot(y)").data :=
  (extract_code_search_semantics.1 (("Header ").data) (("R").data)
      'y' ((" <- rnorm(10)\nplot(y)").data) (("\nTrailing").data)
      (by decide) (by decide) (by decide) (by decide) (by decide)).trans (by decide)

/-- Claim C3, counterexample.  The claim says tag matching is case-insensitive
over the recognized set, so the case variant `PYTHON` (recognized by the
specification's reading, `specRecognizedTag`) should open a matching
block; the implementation's alternation lists only the four literal
spellings `r`, `R`, `python`, `Python`, so a `PYTHON` block is not
matched at all while the same file with `python` is. -/
theorem extract_tag_case_sensitive_cex :
    specRecognizedTag (("PYTHON").data) = true ∧
      extract_code (("```PYTHON\nx\n```\n").data) = [] ∧
      extract_description (("```PYTHON\n# y\nx\n```\n").data) = descFallback ∧
      extract_code (("```python\nx\n```\n").data) = ("x").data := by
  refine ⟨by decide, by decide, by decide, by decide⟩

/-- Claim C3, amended.  Tag matching covers exactly the four literal spellings
`r`, `R`, `python`, `Python` (not every case variant): each of the four
is treated as a matching opening tag by both extraction operations. -/
theorem extract_tag_spellings :
    ∀ t ∈ langTags,
      extract_code (fence3 ++ (t ++ (("\nx\n```").data))) = ("x").data ∧
        extract_description (fence3 ++ (t ++ (("\n# y\nz\n```\n").data))) = ("y").data := by
  intro t ht
  simp only [langTags, List.mem_cons, List.not_mem_nil, or_false] at ht
  rcases ht with h | h | h | h <;> subst h <;> exact ⟨by decide, by decide⟩

/-- Claim C3, witness for the amended theorem at the spelling `Python`. -/
theorem extract_tag_spellings_witness :
    extract_code (fence3 ++ ((("Python").data) ++ (("\nx\n```").data))) = ("x").data ∧
      extract_description (fence3 ++ ((("Python").data) ++ (("\n# y\nz\n```\n").data)))
        = ("y").data :=
  extract_tag_spellings (("Python").data) (by decide)

/-- Claim C10, counterexample.  The claim says a first block line consisting of
`#` alone yields the fallback description.  In this file the first
recognized block's first line is exactly `#`, yet `extract_description`
returns the following line `hello`: the pattern's `\s*` after `#`
matches the newline, so the required "comment text" is taken from the
next line instead of failing. -/
theorem extract_description_bare_hash_cex :
    firstRecBlock (linesOf (("```python\n#\nhello\n```\n").data))
        = some [(("#").data), (("hello").data)] ∧
      extract_description (("```python\n#\nhello\n```\n").data) = ("hello").data ∧
      ("hello").data ≠ descFallback := by
  refine ⟨by decide, by decide, by decide⟩

/-- Claim C10, amended.  When the first line of the matched block is `#` with
no comment text, the description is not necessarily the fallback: the
whitespace class after the marker also matches line breaks, so the
description becomes the next run of text up to a newline (stripped); the
fallback only arises when no such text exists. -/
theorem extract_description_hash_skips_newline :
    ∀ (t : List Char) (d : Char) (ds rest : List Char),
      t ∈ langTags → pySpace d = false → '\n' ∉ ds →
      extract_description (fence3 ++ (t ++ ('\n' :: '#' :: '\n' :: ((d :: ds) ++ '\n' :: rest))))
        = pyStrip (d :: ds) := by
  intro t d ds rest ht hd hds
  have h1 : wsStar dotPlusLazyNl ((d :: ds) ++ '\n' :: rest) = some (d :: ds) := by
    rw [List.cons_append, wsStar_nonspace _ _ _ hd]
    exact dotPlusLazyNl_append d ds rest hd hds
  have h2 : wsStar dotPlusLazyNl ('\n' :: ((d :: ds) ++ '\n' :: rest)) = some (d :: ds) :=
    wsStar_space_inner _ _ _ _ pySpace_nl h1
  have h3 : afterWsDesc ('\n' :: '#' :: '\n' :: ((d :: ds) ++ '\n' :: rest)) = some (d :: ds) := by
    rw [afterWsDesc, if_pos ⟨rfl, rfl⟩]
    exact h2
  have h4 : wsStar afterWsDesc ('#' :: '\n' :: ((d :: ds) ++ '\n' :: rest)) = none := by
    rw [wsStar_nonspace _ _ _ (by decide)]
    exact afterWsDesc_not_nl _ _ (by decide)
  have h5 : descAfterTag ('\n' :: '#' :: '\n' :: ((d :: ds) ++ '\n' :: rest)) = some (d :: ds) := by
    unfold descAfterTag
    rw [wsStar_space_fallback _ _ _ pySpace_nl h4]
    exact h3
  have hm : matchDescAt (fence3 ++ (t ++ ('\n' :: '#' :: '\n' :: ((d :: ds) ++ '\n' :: rest))))
      = some (d :: ds) := by
    rw [matchDescAt_fence _ _ ht]
    exact h5
  exact extract_description_of_search (searchDesc_head_some btick _ _ hm)

/-- Claim C10, witness for the amended theorem at a concrete file. -/
theorem extract_description_hash_skips_newline_witness :
    extract_description
        (fence3 ++ ((("r").data) ++
          ('\n' :: '#' :: '\n' :: (('n' :: ("ext line text").data) ++
            '\n' :: (("```\n").data)))))
      = ("next line text").data :=
  (extract_description_hash_skips_newline (("r").data) 'n' (("ext line text").data)
      (("```\n").data) (by decide) (by decide) (by decide)).trans (by decide)

/-! ### Claim C6: language detection -/

/-- Claim C6: `detect_language` is a total deterministic function of the
category name, given by the fixed case-insensitive substring rules in
their priority order: `r code`/`r-code` → `(R, r)`, else `python` →
`(Python, python)`, else `javascript`/`js` → `(JavaScript, javascript)`,
else the fallback `(Code, plaintext)`. -/
theorem detect_language_rules (s : List Char) :
    ((hasSubstr (("r code").data) (s.map Char.toLower) ||
        hasSubstr (("r-code").data) (s.map Char.toLower)) = true →
      detect_language s = (("R").data, ("r").data)) ∧
    ((hasSubstr (("r code").data) (s.map Char.toLower) ||
        hasSubstr (("r-code").data) (s.map Char.toLower)) = false →
      hasSubstr (("python").data) (s.map Char.toLower) = true →
      detect_language s = (("Python").data, ("python").data)) ∧
    ((hasSubstr (("r code").data) (s.map Char.toLower) ||
        hasSubstr (("r-code").data) (s.map Char.toLower)) = false →
      hasSubstr (("python").data) (s.map Char.toLower) = false →
      (hasSubstr (("javascript").data) (s.map Char.toLower) ||
        hasSubstr (("js").data) (s.map Char.toLower)) = true →
      detect_language s = (("JavaScript").data, ("javascript").data)) ∧
    ((hasSubstr (("r code").data) (s.map Char.toLower) ||
        hasSubstr (("r-code").data) (s.map Char.toLower)) = false →
      hasSubstr (("python").data) (s.map Char.toLower) = false →
      (hasSubstr (("javascript").data) (s.map Char.toLower) ||
        hasSubstr (("js").data) (s.map Char.toLower)) = false →
      detect_language s = (("Code").data, ("plaintext").data)) := by
  refine ⟨?_, ?_, ?_, ?_⟩
  · intro h
    simp [detect_language, h]
  · intro h1 h2
    simp [detect_language, h1, h2]
  · intro h1 h2 h3
    simp [detect_language, h1, h2, h3]
  · intro h1 h2 h3
    simp [detect_language, h1, h2, h3]

/-- Claim C6, witness: the three mappings named by the claim. -/
theorem detect_language_rules_witness :
    detect_language (("R code").data) = (("R").data, ("r").data) ∧
      detect_language (("Python code").data) = (("Python").data, ("python").data) ∧
      detect_language (("Foo").data) = (("Code").data, ("plaintext").data) :=
  ⟨(detect_language_rules (("R code").data)).1 (by decide),
    (detect_language_rules (("Python code").data)).2.1 (by decide) (by decide),
    (detect_language_rules (("Foo").data)).2.2.2 (by decide) (by decide) (by decide)⟩

/-! ### Claim C7: empty category -/

/-- Claim C7: whenever the scanned item list of a category is empty (missing
directory or directory with no usable pairs), `generate_page` writes
nothing — the output state is returned unchanged — emits the diagnostic
and returns normally. -/
theorem generate_page_empty (dirName : List Char) (outName : Option (List Char))
    (dir : Option (List (List Char × List Char))) (pages : List (List Char × List Char))
    (h : (scan_directory dirName dir).1 = []) :
    generate_page dirName outName dir pages = (pages, true) := by
  simp [generate_page, h]

/-- Claim C7, witness: a missing directory and an existing-but-empty one. -/
theorem generate_page_empty_witness :
    generate_page (("R code").data) none none [] = ([], true) ∧
      generate_page (("Python code").data) none (some []) [] = ([], true) :=
  ⟨generate_page_empty (("R code").data) none none [] (by decide),
    generate_page_empty (("Python code").data) none (some []) [] (by decide)⟩

/-! ### Claim C8: failed reads -/

/-- Claim C8: when the documentation file cannot be read (the `none` read
result models any failure: missing file, permission error, decode
failure), `extract_description_from_md` returns the fallback and
`extract_code_from_md` the empty string, each recording the diagnostic;
a successful read never takes the diagnostic branch, and both operations
are total functions, so the run continues past a failed file. -/
theorem extract_from_md_read_failure :
    extract_description_from_md none = (descFallback, true) ∧
      extract_code_from_md none = ([], true) ∧
      (∀ c : List Char,
        extract_description_from_md (some c) = (extract_description c, false) ∧
          extract_code_from_md (some c) = (extract_code c, false)) :=
  ⟨rfl, rfl, fun _ => ⟨rfl, rfl⟩⟩

/-! ### Claim C9: pairing of cards and detail views -/

theorem trig_infix_card (i : Nat) (it : Item) : List.IsInfix (trigStr i) (cardHtml i it) :=
  ⟨cardA ++ natStr i ++ cardB1 ++ it.title ++ cardB2 ++ it.image_path ++ cardB3 ++
      it.title ++ cardB4,
    cardB5 ++ it.title ++ cardB6 ++ it.description ++ cardB7,
    by simp [cardHtml, List.append_assoc]⟩

theorem id_infix_modal (i : Nat) (it : Item) (ln lc : List Char) :
    List.IsInfix (modalIdStr i) (modalHtml i it ln lc) :=
  ⟨modalA ++ natStr i ++ modalB1 ++ it.title ++ modalB2,
    modalB3 ++ natStr i ++ modalB4 ++ it.title ++ modalB5 ++ ln ++ modalB6 ++ lc ++
      modalB7 ++ it.code ++ modalB8 ++ it.image_path ++ modalB9 ++ it.title ++ modalB10,
    by simp [modalHtml, List.append_assoc]⟩

/-! ### Claims C4, C5: the directory scan -/

theorem lexLe_total : ∀ a b : List Char, lexLe a b = true ∨ lexLe b a = true
  | [], _ => Or.inl rfl
  | _ :: _, [] => Or.inr rfl
  | a :: as, b :: bs => by
    rw [lexLe, lexLe]
    by_cases hab : a.toNat = b.toNat
    · rw [if_pos hab, if_pos hab.symm]
      exact lexLe_total as bs
    · have hba : b.toNat ≠ a.toNat := fun h => hab h.symm
      rw [if_neg hab, if_neg hba]
      rcases Nat.lt_or_ge a.toNat b.toNat with h | h
      · exact Or.inl (decide_eq_true h)
      · exact Or.inr (decide_eq_true (by omega))

theorem lexLe_trans : ∀ a b c : List Char,
    lexLe a b = true → lexLe b c = true → lexLe a c = true
  | [], _, _, _, _ => rfl
  | _ :: _, [], _, h, _ => by rw [lexLe] at h; exact absurd h (by simp)
  | _ :: _, _ :: _, [], _, h2 => by rw [lexLe] at h2; exact absurd h2 (by simp)
  | a :: as, b :: bs, c :: cs, h1, h2 => by
    rw [lexLe] at h1 h2 ⊢
    by_cases hab : a.toNat = b.toNat
    · rw [if_pos hab] at h1
      by_cases hbc : b.toNat = c.toNat
      · rw [if_pos hbc] at h2
        rw [if_pos (hab.trans hbc)]
        exact lexLe_trans as bs cs h1 h2
      · rw [if_neg hbc] at h2
        have hlt : b.toNat < c.toNat := of_decide_eq_true h2
        rw [if_neg (show a.toNat ≠ c.toNat by omega)]
        exact decide_eq_true (by omega)
    · rw [if_neg hab] at h1
      have h1' : a.toNat < b.toNat := of_decide_eq_true h1
      by_cases hbc : b.toNat = c.toNat
      · rw [if_neg (show a.toNat ≠ c.toNat by omega)]
        exact decide_eq_true (by omega)
      · rw [if_neg hbc] at h2
        have h2' : b.toNat < c.toNat := of_decide_eq_true h2
        rw [if_neg (show a.toNat ≠ c.toNat by omega)]
        exact decide_eq_true (by omega)

instance : IsTotal (List Char × List Char) fileLe :=
  ⟨fun a b => lexLe_total a.1 b.1⟩

instance : IsTrans (List Char × List Char) fileLe :=
  ⟨fun a b c => lexLe_trans a.1 b.1 c.1⟩

theorem mdExt_length : mdExt.length = 3 := by decide

theorem stemOf_append (base : List Char) (hb : base ≠ []) :
    stemOf (base ++ mdExt) = base := by
  unfold stemOf
  have hlen : (base ++ mdExt).length - 3 = base.length := by
    rw [List.length_append, mdExt_length]
    omega
  simp only [hlen, List.take_left]
  rw [if_neg hb]

theorem name_eq_of_md (n : List Char) (hmd : isMdName n = true) (hne : n ≠ mdExt) :
    stemOf n ++ mdExt = n := by
  have hsuf : mdExt <:+ n := List.isSuffixOf_iff_suffix.mp hmd
  obtain ⟨p, hp⟩ := hsuf
  have hpne : p ≠ [] := by
    rintro rfl
    exact hne ((List.nil_append mdExt ▸ hp).symm)
  rw [← hp, stemOf_append p hpne]

theorem mkItem_title (dn : List Char) (names : List (List Char))
    (f : List Char × List Char) (it : Item) (h : mkItem dn names f = some it) :
    it.title = stemOf f.1 := by
  simp only [mkItem] at h
  split at h
  · rw [← Option.some.inj h]
  · exact absurd h (by simp)

theorem mkItem_png (dn : List Char) (names : List (List Char))
    (f : List Char × List Char) (it : Item) (h : mkItem dn names f = some it) :
    names.contains (stemOf f.1 ++ pngExt) = true := by
  simp only [mkItem] at h
  split at h
  next hc => exact hc
  next => exact absurd h (by simp)

/-- Claim C4: `scan_directory` produces an item titled `base` exactly when both
`base.md` and `base.png` are present in the category directory (for a
genuine base name, i.e. a nonempty one, in a directory without the
degenerate dotfile named exactly `.md`); a documentation file without
its image is excluded with no diagnostic — the scan of an existing
directory never warns. -/
theorem scan_item_iff (dirName : List Char) (files : List (List Char × List Char))
    (base : List Char) (hb : base ≠ [])
    (hmd : ∀ f ∈ files, f.1 ≠ mdExt) :
    ((∃ it ∈ (scan_directory dirName (some files)).1, it.title = base) ↔
      ((base ++ mdExt) ∈ files.map Prod.fst ∧ (base ++ pngExt) ∈ files.map Prod.fst)) ∧
      (scan_directory dirName (some files)).2 = false := by
  constructor
  · constructor
    · rintro ⟨it, hit, htit⟩
      simp only [scan_directory] at hit
      rw [List.mem_filterMap] at hit
      obtain ⟨f, hfs, hmk⟩ := hit
      rw [List.mem_insertionSort, List.mem_filter] at hfs
      obtain ⟨hfmem, hfmd⟩ := hfs
      have htitle : it.title = stemOf f.1 := mkItem_title _ _ _ _ hmk
      have hname : base ++ mdExt = f.1 := by
        rw [← htit, htitle]
        exact name_eq_of_md f.1 hfmd (hmd f hfmem)
      constructor
      · rw [hname]
        exact List.mem_map.mpr ⟨f, hfmem, rfl⟩
      · have hpng := mkItem_png _ _ _ _ hmk
        rw [← htit, htitle]
        exact List.elem_iff.mp hpng
    · rintro ⟨hmdmem, hpng⟩
      obtain ⟨f, hfmem, hf1⟩ := List.mem_map.mp hmdmem
      have hfmd : isMdName f.1 = true := by
        rw [hf1]
        exact List.isSuffixOf_iff_suffix.mpr (List.suffix_append base mdExt)
      have hstem : stemOf f.1 = base := by
        rw [hf1]
        exact stemOf_append base hb
      have hcont : (files.map Prod.fst).contains (stemOf f.1 ++ pngExt) = true := by
        rw [hstem]
        exact List.elem_iff.mpr hpng
      refine ⟨{ title := base
                description := extract_description f.2
                image_path := ("../img/").data ++ dirName ++ ("/").data ++ base ++ pngExt
                code := extract_code f.2 }, ?_, rfl⟩
      simp only [scan_directory]
      rw [List.mem_filterMap]
      refine ⟨f, ?_, ?_⟩
      · rw [List.mem_insertionSort, List.mem_filter]
        exact ⟨hfmem, hfmd⟩
      · simp only [mkItem]
        rw [if_pos hcont, hstem]
  · simp [scan_directory]

/-- Claim C4, witness: a directory holding the pair `a.md`/`a.png` and an
imageless `b.md`. -/
theorem scan_item_iff_witness :
    ((∃ it ∈ (scan_directory (("R code").data)
          (some [((("a.md").data), []), ((("a.png").data), []),
            ((("b.md").data), [])])).1, it.title = ("a").data) ↔
      (((("a").data) ++ mdExt) ∈
          [((("a.md").data), ([] : List Char)), ((("a.png").data), []),
            ((("b.md").data), [])].map Prod.fst ∧
        ((("a").data) ++ pngExt) ∈
          [((("a.md").data), ([] : List Char)), ((("a.png").data), []),
            ((("b.md").data), [])].map Prod.fst)) ∧
      (scan_directory (("R code").data)
        (some [((("a.md").data), []), ((("a.png").data), []),
          ((("b.md").data), [])])).2 = false :=
  scan_item_iff (("R code").data)
    [((("a.md").data), []), ((("a.png").data), []), ((("b.md").data), [])]
    (("a").data) (by decide) (by decide)

/-- Claim C5, counterexample.  The claim says items are ordered
lexicographically by base name.  The scan sorts by full file name; with
base names `a!` and `a` the file order `a!.md < a.md` (`!` precedes `.`)
contradicts the base-name order `a < a!`, so the produced titles
`[a!, a]` are not lexicographically sorted. -/
theorem scan_not_sorted_by_stem_cex :
    ((scan_directory (("R code").data) (some prefixCexFiles)).1.map Item.title)
        = [("a!").data, ("a").data] ∧
      ¬ List.Pairwise (fun x y => lexLe x y = true)
        ((scan_directory (("R code").data) (some prefixCexFiles)).1.map Item.title) := by
  refine ⟨by decide, by decide⟩

/-- Claim C5, amended.  Items are sorted lexicographically by the full
documentation file name (`title ++ ".md"`), which coincides with
base-name order except when one base name is a proper prefix of another
and the next character precedes `.`; and rendering preserves the list
order exactly: the `k`-th card of the page is built from the `k`-th item
with sequential identifier `k+1`, and likewise the `k`-th detail view. -/
theorem scan_sorted_and_render_order :
    (∀ (dirName : List Char) (files : List (List Char × List Char)),
        (∀ f ∈ files, f.1 ≠ mdExt) →
        List.Pairwise
          (fun x y : Item => lexLe (x.title ++ mdExt) (y.title ++ mdExt) = true)
          (scan_directory dirName (some files)).1) ∧
      (∀ (dirName : List Char) (items : List Item) (k : Nat), k < items.length →
        ∃ it, items[k]? = some it ∧
          (galleryCards items)[k]? = some (cardHtml (k + 1) it) ∧
          (modalViews dirName items)[k]? =
            some (modalHtml (k + 1) it (detect_language dirName).1
              (detect_language dirName).2)) := by
  constructor
  · intro dirName files hmd
    simp only [scan_directory]
    rw [List.pairwise_filterMap]
    have hsorted : List.Pairwise fileLe
        ((files.filter (fun f => isMdName f.1)).insertionSort fileLe) :=
      List.sorted_insertionSort fileLe _
    refine List.Pairwise.imp_of_mem ?_ hsorted
    intro f f' hf hf' hle it hit it' hit'
    rw [List.mem_insertionSort, List.mem_filter] at hf hf'
    have h1 : it.title ++ mdExt = f.1 := by
      rw [mkItem_title _ _ _ _ hit]
      exact name_eq_of_md f.1 hf.2 (hmd f hf.1)
    have h2 : it'.title ++ mdExt = f'.1 := by
      rw [mkItem_title _ _ _ _ hit']
      exact name_eq_of_md f'.1 hf'.2 (hmd f' hf'.1)
    rw [h1, h2]
    exact hle
  · intro dirName items k hk
    refine ⟨items[k], List.getElem?_eq_getElem hk, ?_, ?_⟩
    · rw [galleryCards, List.getElem?_map, List.getElem?_enumFrom,
        List.getElem?_eq_getElem hk]
      simp [Nat.add_comm]
    · rw [modalViews, List.getElem?_map, List.getElem?_enumFrom,
        List.getElem?_eq_getElem hk]
      simp [Nat.add_comm]

/-- Claim C5, witness for the amended theorem: a directory listed out of
order, and the first rendered card/view of a one-item list. -/
theorem scan_sorted_and_render_order_witness :
    List.Pairwise
        (fun x y : Item => lexLe (x.title ++ mdExt) (y.title ++ mdExt) = true)
        (scan_directory (("R code").data)
          (some [((("b.md").data), []), ((("b.png").data), []),
            ((("a.md").data), []), ((("a.png").data), [])])).1 ∧
      ∃ it, ([⟨(("a").data), (("d").data), (("p").data), (("c").data)⟩] : List Item)[0]?
          = some it ∧
        (galleryCards [⟨(("a").data), (("d").data), (("p").data), (("c").data)⟩])[0]?
          = some (cardHtml (0 + 1) it) ∧
        (modalViews (("R code").data)
            [⟨(("a").data), (("d").data), (("p").data), (("c").data)⟩])[0]? =
          some (modalHtml (0 + 1) it (detect_language (("R code").data)).1
            (detect_language (("R code").data)).2) :=
  ⟨scan_sorted_and_render_order.1 (("R code").data)
      [((("b.md").data), []), ((("b.png").data), []),
        ((("a.md").data), []), ((("a.png").data), [])] (by decide),
    scan_sorted_and_render_order.2 (("R code").data)
      [⟨(("a").data), (("d").data), (("p").data), (("c").data)⟩] 0 (by decide)⟩

/-- Claim C9: for a two-item list the page carries exactly two thumbnail cards
and exactly two detail views, rendered in list order, and the sequential
identifiers pair them one-to-one: card 1 carries the trigger for
`modal-1` and detail view 1 carries the identifier `modal-1`, and
likewise for 2. -/
theorem two_items_cards_modals (dirName : List Char) (a b : Item) :
    (galleryCards [a, b]).length = 2 ∧
      (modalViews dirName [a, b]).length = 2 ∧
      (∃ c1, (galleryCards [a, b])[0]? = some c1 ∧ List.IsInfix (trigStr 1) c1) ∧
      (∃ c2, (galleryCards [a, b])[1]? = some c2 ∧ List.IsInfix (trigStr 2) c2) ∧
      (∃ m1, (modalViews dirName [a, b])[0]? = some m1 ∧ List.IsInfix (modalIdStr 1) m1) ∧
      (∃ m2, (modalViews dirName [a, b])[1]? = some m2 ∧ List.IsInfix (modalIdStr 2) m2) :=
  ⟨rfl, rfl,
    ⟨cardHtml 1 a, rfl, trig_infix_card 1 a⟩,
    ⟨cardHtml 2 b, rfl, trig_infix_card 2 b⟩,
    ⟨modalHtml 1 a (detect_language dirName).1 (detect_language dirName).2, rfl,
      id_infix_modal 1 a _ _⟩,
    ⟨modalHtml 2 b (detect_language dirName).1 (detect_language dirName).2, rfl,
      id_infix_modal 2 b _ _⟩⟩

end Gallery
